import Mathlib

/-!
Verification of the avp-ts secret-vault engine against its specification.

The TypeScript sources are shallowly embedded: JS `Map`s and plain-object
dictionaries become association lists with JS `Map.set`/`delete` semantics
(replace-in-place keeping insertion order, append when absent), `Date`
values become `Nat` epoch instants (ISO-8601 serialisation is order- and
equality-faithful, so `toISOString`/`new Date(s)` round-trips are modelled
as the identity on the instant), `Uint8Array` values become `List Nat`
byte lists, and thrown `AVPError`s become `Except` error values.  Each
operation of the stateful backends takes the backend state and the current
clock reading explicitly and returns the result together with the new
state.
-/

namespace AVP

/-! ### Association-list model of JS `Map` / plain-object dictionaries -/

/-- `Map.get` / property read: the value at the first matching key. -/
def alistLookup {α : Type} (m : List (String × α)) (k : String) : Option α :=
  match m with
  | [] => none
  | (k2, v) :: rest => if k2 = k then some v else alistLookup rest k

/-- `Map.set` / property write: replace in place, append when absent. -/
def alistSet {α : Type} (m : List (String × α)) (k : String) (v : α) :
    List (String × α) :=
  match m with
  | [] => [(k, v)]
  | (k2, v2) :: rest =>
    if k2 = k then (k2, v) :: rest else (k2, v2) :: alistSet rest k v

/-- `Map.delete` / `delete obj[k]`: remove the entry at the key. -/
def alistErase {α : Type} (m : List (String × α)) (k : String) :
    List (String × α) :=
  match m with
  | [] => []
  | (k2, v2) :: rest =>
    if k2 = k then rest else (k2, v2) :: alistErase rest k

theorem alistLookup_set_self {α : Type} (m : List (String × α)) (k : String) (v : α) :
    alistLookup (alistSet m k v) k = some v := by
  induction m with
  | nil => simp [alistSet, alistLookup]
  | cons p rest ih =>
    obtain ⟨k2, v2⟩ := p
    by_cases h : k2 = k
    · simp [alistSet, alistLookup, h]
    · simp [alistSet, alistLookup, h, ih]

theorem alistLookup_set_ne {α : Type} (m : List (String × α)) (k k2 : String) (v : α)
    (h : k2 ≠ k) : alistLookup (alistSet m k v) k2 = alistLookup m k2 := by
  induction m with
  | nil => simp [alistSet, alistLookup, Ne.symm h]
  | cons p rest ih =>
    obtain ⟨k3, v3⟩ := p
    by_cases h3 : k3 = k
    · subst h3
      simp [alistSet, alistLookup, Ne.symm h]
    · simp only [alistSet, if_neg h3]
      by_cases h4 : k3 = k2
      · simp [alistLookup, h4]
      · simp [alistLookup, h4, ih]

/-- In a duplicate-free map (the invariant every JS `Map` maintains),
membership of an entry determines the lookup result. -/
theorem alistLookup_eq_of_mem_nodup {α : Type} (m : List (String × α)) (k : String) (v : α)
    (hnd : (m.map Prod.fst).Nodup) (hmem : (k, v) ∈ m) :
    alistLookup m k = some v := by
  induction m with
  | nil => simp at hmem
  | cons p rest ih =>
    obtain ⟨k2, v2⟩ := p
    simp only [List.map_cons, List.nodup_cons] at hnd
    rcases List.mem_cons.mp hmem with h | h
    · obtain ⟨h1, h2⟩ := Prod.mk.injEq .. ▸ h
      simp [alistLookup, h1.symm, h2]
    · have hk : k2 ≠ k := by
        intro he
        exact hnd.1 (he ▸ (List.mem_map.mpr ⟨(k, v), h, rfl⟩))
      simp [alistLookup, hk, ih hnd.2 h]

/-! ### Shared data model (src/types.ts) -/

/-- Error taxonomy: thrown `AVPError` subclasses, modelled by their kind. -/
inductive AVPErr where
  | secretNotFound
  | encryptionError
  | invalidWorkspace
  | authenticationFailed
  | sessionNotFound
  | sessionExpired
deriving DecidableEq, Repr

/-- `SecretMetadata` (dates as epoch instants, labels as a dictionary). -/
structure SecretMetadata where
  createdAt : Nat
  updatedAt : Nat
  backend : String
  version : Nat
  labels : List (String × String)
  expiresAt : Option Nat
deriving DecidableEq, Repr

/-- A `Secret` as returned by `listSecrets`: never carries the value. -/
structure Secret where
  name : String
  workspace : String
  metadata : SecretMetadata
deriving DecidableEq, Repr

/-- `StoreResult` from backends/base.ts. -/
structure StoreResult where
  created : Bool
  version : Nat
deriving DecidableEq, Repr

/-- `RetrieveResult` from backends/base.ts. -/
structure RetrieveResult where
  value : List Nat
  version : Nat
deriving DecidableEq, Repr

/-- `ListResult` from backends/base.ts. -/
structure ListResult where
  secrets : List Secret
  cursor : Option String
deriving DecidableEq, Repr

/-- The truthy-guarded expiry test `expiresAt && new Date() > expiresAt`. -/
def dateExpired (expiresAt : Option Nat) (now : Nat) : Bool :=
  expiresAt.any fun e => decide (e < now)

/-- `Object.entries(filterLabels).every(([k, v]) => labels[k] === v)`. -/
def labelsMatch (filterLabels : List (String × String)) (labels : List (String × String)) : Bool :=
  filterLabels.all fun kv => alistLookup labels kv.1 == some kv.2

/-- `parseInt(cursor, 10)` on the decimal cursors this code emits;
a missing or non-numeric cursor leaves the start index at 0. -/
def parseCursor (cursor : Option String) : Nat :=
  (cursor.bind String.toNat?).getD 0

/-- One step of the stable by-name sort (`Array.prototype.sort` with the
comparator applied to names): insert before the first non-smaller entry. -/
def insertByName (cmp : String → String → Ordering) (x : Secret) :
    List Secret → List Secret
  | [] => [x]
  | y :: ys =>
    if cmp x.name y.name = .gt then y :: insertByName cmp x ys else x :: y :: ys

/-- `secrets.sort((a, b) => cmp(a.name, b.name))` as a stable insertion
sort; `cmp` stands for the host collation `localeCompare`. -/
def sortByName (cmp : String → String → Ordering) (l : List Secret) : List Secret :=
  l.foldr (insertByName cmp) []

/-! ### Memory backend (src/backends/memory.ts) -/

namespace MemoryBackend

/-- `StoredSecret` of memory.ts. -/
structure StoredSecret where
  value : List Nat
  metadata : SecretMetadata
deriving DecidableEq, Repr

/-- The per-workspace `Map<string, StoredSecret>`. -/
abbrev WsMap := List (String × StoredSecret)

/-- `_secrets : Map<string, Map<string, StoredSecret>>`. -/
abbrev MemStore := List (String × WsMap)

/-- `MemoryBackend.store`. -/
def store (st : MemStore) (workspace name : String) (value : List Nat)
    (labels : Option (List (String × String))) (expiresAt : Option Nat)
    (now : Nat) : StoreResult × MemStore :=
  let ws := (alistLookup st workspace).getD []
  let existing := alistLookup ws name
  let created := existing.isNone
  let version : Nat :=
    match existing with
    | none => 1
    | some e => e.metadata.version + 1
  let createdAt : Nat :=
    match existing with
    | none => now
    | some e => e.metadata.createdAt
  let metadata : SecretMetadata :=
    { createdAt := createdAt, updatedAt := now, backend := "memory",
      version := version, labels := labels.getD [], expiresAt := expiresAt }
  (⟨created, version⟩, alistSet st workspace (alistSet ws name ⟨value, metadata⟩))

/-- `MemoryBackend.retrieve` (the expiry branch deletes the entry). -/
def retrieve (st : MemStore) (workspace name : String) (version : Option Nat)
    (now : Nat) : Except AVPErr RetrieveResult × MemStore :=
  match alistLookup st workspace with
  | none => (.error .secretNotFound, st)
  | some ws =>
    match alistLookup ws name with
    | none => (.error .secretNotFound, st)
    | some secret =>
      if dateExpired secret.metadata.expiresAt now then
        (.error .secretNotFound, alistSet st workspace (alistErase ws name))
      else if version.any fun v => v != secret.metadata.version then
        (.error .secretNotFound, st)
      else
        (.ok ⟨secret.value, secret.metadata.version⟩, st)

/-- `MemoryBackend.delete`: no expiry check; the in-place zero-fill of the
value buffer precedes removal and is invisible in the resulting state. -/
def delete (st : MemStore) (workspace name : String) : Bool × MemStore :=
  match alistLookup st workspace with
  | none => (false, st)
  | some ws =>
    match alistLookup ws name with
    | none => (false, st)
    | some _ => (true, alistSet st workspace (alistErase ws name))

/-- `MemoryBackend.getMetadata` (the expiry branch deletes the entry). -/
def getMetadata (st : MemStore) (workspace name : String) (now : Nat) :
    Except AVPErr SecretMetadata × MemStore :=
  match alistLookup st workspace with
  | none => (.error .secretNotFound, st)
  | some ws =>
    match alistLookup ws name with
    | none => (.error .secretNotFound, st)
    | some secret =>
      if dateExpired secret.metadata.expiresAt now then
        (.error .secretNotFound, alistSet st workspace (alistErase ws name))
      else
        (.ok secret.metadata, st)

/-- The collection loop of `MemoryBackend.listSecrets`: skip expired
entries, apply the label filter, never include the value. -/
def collectSecrets (workspace : String) (ws : WsMap)
    (filterLabels : Option (List (String × String))) (now : Nat) : List Secret :=
  ws.filterMap fun p =>
    if dateExpired p.2.metadata.expiresAt now then none
    else if filterLabels.any fun fl => !labelsMatch fl p.2.metadata.labels then none
    else some ⟨p.1, workspace, p.2.metadata⟩

/-- `MemoryBackend.listSecrets`: collect, sort by name, slice
`[start, start + limit)`, and emit the next index as the cursor. -/
def listSecrets (st : MemStore) (workspace : String)
    (filterLabels : Option (List (String × String))) (cursor : Option String)
    (limit : Nat) (now : Nat) (cmp : String → String → Ordering) : ListResult :=
  match alistLookup st workspace with
  | none => ⟨[], none⟩
  | some ws =>
    let sorted := sortByName cmp (collectSecrets workspace ws filterLabels now)
    let start := parseCursor cursor
    let page := (sorted.drop start).take limit
    let nextCursor :=
      if start + limit < sorted.length then some (toString (start + limit)) else none
    ⟨page, nextCursor⟩

/-- `BackendBase.rotate` specialised to the memory backend: verify
existence via `getMetadata`, then `store` the new value (no labels, no
expiry are forwarded). -/
def rotate (st : MemStore) (workspace name : String) (newValue : List Nat)
    (now : Nat) : Except AVPErr Nat × MemStore :=
  match getMetadata st workspace name now with
  | (.error e, st2) => (.error e, st2)
  | (.ok _, st2) =>
    let r := store st2 workspace name newValue none none now
    (.ok r.1.version, r.2)

end MemoryBackend

/-! ### Base64 (Node `Buffer` base64 codec, used by the file backend) -/

/-- The standard base64 alphabet. -/
def base64Chars : List Char :=
  "ABCDEFGHIJKLMNOPQRSTUVWXYZabcdefghijklmnopqrstuvwxyz0123456789+/".toList

/-- Index into the base64 alphabet. -/
def b64Char (n : Nat) : Char := base64Chars.getD n 'A'

/-- `Buffer.from(bytes).toString("base64")`. -/
def base64Encode : List Nat → List Char
  | [] => []
  | [a] =>
    [b64Char (a / 4 % 64), b64Char (a % 4 * 16), '=', '=']
  | [a, b] =>
    [b64Char (a / 4 % 64), b64Char (a % 4 * 16 + b / 16 % 16), b64Char (b % 16 * 4), '=']
  | a :: b :: c :: rest =>
    b64Char (a / 4 % 64) :: b64Char (a % 4 * 16 + b / 16 % 16) ::
      b64Char (b % 16 * 4 + c / 64 % 4) :: b64Char (c % 64) :: base64Encode rest

/-- The value of one base64 digit. -/
def b64Val (c : Char) : Nat :=
  if 'A' ≤ c ∧ c ≤ 'Z' then c.toNat - 65
  else if 'a' ≤ c ∧ c ≤ 'z' then c.toNat - 97 + 26
  else if '0' ≤ c ∧ c ≤ '9' then c.toNat - 48 + 52
  else if c = '+' then 62
  else if c = '/' then 63
  else 0

/-- `Buffer.from(s, "base64")`: decode four digits to three bytes,
dropping the bytes masked out by `=` padding. -/
def base64Decode : List Char → List Nat
  | c1 :: c2 :: c3 :: c4 :: rest =>
    let n := b64Val c1 * 262144 + b64Val c2 * 4096 + b64Val c3 * 64 + b64Val c4
    let bs := [n / 65536, n / 256 % 256, n % 256]
    (if c4 = '=' then if c3 = '=' then bs.take 1 else bs.take 2 else bs) ++
      base64Decode rest
  | _ => []

/-! ### Encrypted file backend, in-memory data operations
(src/backends/file.ts)

The backend decrypts the vault into `_data : StoredData` on construction
and re-encrypts and rewrites the whole file on every mutation.  The
observable state of every operation is `_data`; `_save` performs I/O that
does not change `_data` and is therefore not part of the state model.
Serialised dates are epoch instants (ISO-8601 strings compare and
round-trip faithfully), serialised values are base64 strings. -/

namespace FileBackend

/-- `StoredSecret` of file.ts: base64 value plus serialised metadata. -/
structure StoredSecret where
  value : List Char
  metadata : SecretMetadata
deriving DecidableEq, Repr

/-- The per-workspace record of stored secrets. -/
abbrev WsMap := List (String × StoredSecret)

/-- `StoredData`: the decrypted on-disk shape. -/
structure StoredData where
  version : Nat
  workspaces : List (String × WsMap)
deriving DecidableEq, Repr

/-- `{ version: 1, workspaces: {} }`. -/
def emptyStoredData : StoredData := ⟨1, []⟩

/-- `FileBackend._load`: absent or empty file yields the empty vault;
otherwise decrypt-and-parse, any failure becoming an `EncryptionError`.
AES-256-GCM decryption (with the scrypt-derived key) composed with
`JSON.parse` is the host-crypto step, passed in as `decryptParse`. -/
def load (file : Option (List Nat))
    (decryptParse : List Nat → Except String StoredData) :
    Except AVPErr StoredData :=
  match file with
  | none => .ok emptyStoredData
  | some bytes =>
    if bytes.length = 0 then .ok emptyStoredData
    else
      match decryptParse bytes with
      | .ok d => .ok d
      | .error _ => .error .encryptionError

/-- The state a successfully constructed `FileBackend` holds. -/
structure State where
  path : String
  backendId : String
  data : StoredData
deriving Repr

/-- The `FileBackend` constructor: derive the key, then `_load`; a load
failure propagates and no backend value exists. -/
def construct (path backendId : String) (file : Option (List Nat))
    (decryptParse : List Nat → Except String StoredData) :
    Except AVPErr State :=
  (load file decryptParse).map fun d => ⟨path, backendId, d⟩

/-- `FileBackend.store` on `_data` (followed in the code by `_save`). -/
def store (d : StoredData) (workspace name : String) (value : List Nat)
    (labels : Option (List (String × String))) (expiresAt : Option Nat)
    (now : Nat) : StoreResult × StoredData :=
  let ws := (alistLookup d.workspaces workspace).getD []
  let existing := alistLookup ws name
  let created := existing.isNone
  let version : Nat :=
    match existing with
    | none => 1
    | some e => e.metadata.version + 1
  let createdAt : Nat :=
    match existing with
    | none => now
    | some e => e.metadata.createdAt
  let record : StoredSecret :=
    ⟨base64Encode value,
      { createdAt := createdAt, updatedAt := now, backend := "file",
        version := version, labels := labels.getD [], expiresAt := expiresAt }⟩
  (⟨created, version⟩,
    { d with workspaces := alistSet d.workspaces workspace (alistSet ws name record) })

/-- `FileBackend.retrieve` (the expiry branch deletes the entry and saves). -/
def retrieve (d : StoredData) (workspace name : String) (version : Option Nat)
    (now : Nat) : Except AVPErr RetrieveResult × StoredData :=
  match alistLookup d.workspaces workspace with
  | none => (.error .secretNotFound, d)
  | some ws =>
    match alistLookup ws name with
    | none => (.error .secretNotFound, d)
    | some secret =>
      if dateExpired secret.metadata.expiresAt now then
        (.error .secretNotFound,
          { d with workspaces := alistSet d.workspaces workspace (alistErase ws name) })
      else if version.any fun v => v != secret.metadata.version then
        (.error .secretNotFound, d)
      else
        (.ok ⟨base64Decode secret.value, secret.metadata.version⟩, d)

/-- `FileBackend.delete`: no expiry check; the value is overwritten with
32 zero bytes before the entry is removed, which is invisible in the
resulting state. -/
def delete (d : StoredData) (workspace name : String) : Bool × StoredData :=
  match alistLookup d.workspaces workspace with
  | none => (false, d)
  | some ws =>
    match alistLookup ws name with
    | none => (false, d)
    | some _ =>
      (true, { d with workspaces := alistSet d.workspaces workspace (alistErase ws name) })

/-- The deserialisation `stored.metadata` → `SecretMetadata` performed by
file.ts on list/getMetadata: parse the dates, tag the backend. -/
def toSecretMetadata (m : SecretMetadata) : SecretMetadata :=
  { createdAt := m.createdAt, updatedAt := m.updatedAt, backend := "file",
    version := m.version, labels := m.labels, expiresAt := m.expiresAt }

/-- `FileBackend.getMetadata` (the expiry branch deletes the entry). -/
def getMetadata (d : StoredData) (workspace name : String) (now : Nat) :
    Except AVPErr SecretMetadata × StoredData :=
  match alistLookup d.workspaces workspace with
  | none => (.error .secretNotFound, d)
  | some ws =>
    match alistLookup ws name with
    | none => (.error .secretNotFound, d)
    | some stored =>
      if dateExpired stored.metadata.expiresAt now then
        (.error .secretNotFound,
          { d with workspaces := alistSet d.workspaces workspace (alistErase ws name) })
      else
        (.ok (toSecretMetadata stored.metadata), d)

/-- The collection loop of `FileBackend.listSecrets`. -/
def collectSecrets (workspace : String) (ws : WsMap)
    (filterLabels : Option (List (String × String))) (now : Nat) : List Secret :=
  ws.filterMap fun p =>
    if dateExpired p.2.metadata.expiresAt now then none
    else if filterLabels.any fun fl => !labelsMatch fl p.2.metadata.labels then none
    else some ⟨p.1, workspace, toSecretMetadata p.2.metadata⟩

/-- `FileBackend.listSecrets`: collect, sort by name, slice, cursor. -/
def listSecrets (d : StoredData) (workspace : String)
    (filterLabels : Option (List (String × String))) (cursor : Option String)
    (limit : Nat) (now : Nat) (cmp : String → String → Ordering) : ListResult :=
  match alistLookup d.workspaces workspace with
  | none => ⟨[], none⟩
  | some ws =>
    let sorted := sortByName cmp (collectSecrets workspace ws filterLabels now)
    let start := parseCursor cursor
    let page := (sorted.drop start).take limit
    let nextCursor :=
      if start + limit < sorted.length then some (toString (start + limit)) else none
    ⟨page, nextCursor⟩

/-- `BackendBase.rotate` specialised to the file backend. -/
def rotate (d : StoredData) (workspace name : String) (newValue : List Nat)
    (now : Nat) : Except AVPErr Nat × StoredData :=
  match getMetadata d workspace name now with
  | (.error e, d2) => (.error e, d2)
  | (.ok _, d2) =>
    let r := store d2 workspace name newValue none none now
    (.ok r.1.version, r.2)

end FileBackend

/-! ### Claim C1 -/

/-- Claim C1: storing `(workspace, name, value)` in the memory backend and
then retrieving the same name returns exactly the stored value bytes at
the version the store reported, and when the name was absent before the
store the result has `version = 1` and `created = true`. -/
theorem store_then_retrieve_roundtrip (st : MemoryBackend.MemStore)
    (workspace name : String) (value : List Nat) (now now2 : Nat) :
    (MemoryBackend.retrieve
        (MemoryBackend.store st workspace name value none none now).2
        workspace name none now2).1 =
      .ok ⟨value, (MemoryBackend.store st workspace name value none none now).1.version⟩
    ∧ (alistLookup ((alistLookup st workspace).getD []) name = none →
        (MemoryBackend.store st workspace name value none none now).1.version = 1
        ∧ (MemoryBackend.store st workspace name value none none now).1.created = true) := by
  constructor
  · simp only [MemoryBackend.store, MemoryBackend.retrieve,
      alistLookup_set_self, dateExpired, Option.any_none, Option.getD_none]
    simp
  · intro habsent
    simp [MemoryBackend.store, habsent]

/-- Witness for C1 at a concrete fresh store. -/
theorem store_then_retrieve_roundtrip_witness :
    (MemoryBackend.retrieve
        (MemoryBackend.store [] "default" "api_key" [7, 8] none none 5).2
        "default" "api_key" none 6).1 =
      .ok ⟨[7, 8], (MemoryBackend.store [] "default" "api_key" [7, 8] none none 5).1.version⟩
    ∧ (MemoryBackend.store [] "default" "api_key" [7, 8] none none 5).1.version = 1
    ∧ (MemoryBackend.store [] "default" "api_key" [7, 8] none none 5).1.created = true := by
  have h := store_then_retrieve_roundtrip [] "default" "api_key" [7, 8] 5 6
  exact ⟨h.1, h.2 (by decide)⟩

/-! ### Sample states used by the concrete witnesses -/

/-- A live sample secret in the memory backend. -/
def memSampleSecret : MemoryBackend.StoredSecret :=
  ⟨[1, 2], ⟨10, 10, "memory", 1, [], none⟩⟩

/-- A memory store holding one live secret `("w", "a")`. -/
def memSample : MemoryBackend.MemStore := [("w", [("a", memSampleSecret)])]

/-- A live sample secret in the file backend. -/
def fileSampleSecret : FileBackend.StoredSecret :=
  ⟨base64Encode [1, 2], ⟨10, 10, "file", 1, [], none⟩⟩

/-- A file vault holding one live secret `("w", "a")`. -/
def fileSample : FileBackend.StoredData := ⟨1, [("w", [("a", fileSampleSecret)])]⟩

/-- A sample secret that expired at instant 5. -/
def memExpiredSecret : MemoryBackend.StoredSecret :=
  ⟨[1, 2], ⟨3, 3, "memory", 1, [], some 5⟩⟩

/-- A memory store holding one expired secret `("w", "a")`. -/
def memExpired : MemoryBackend.MemStore := [("w", [("a", memExpiredSecret)])]

/-- A file-backend sample secret that expired at instant 5. -/
def fileExpiredSecret : FileBackend.StoredSecret :=
  ⟨base64Encode [1, 2], ⟨3, 3, "file", 1, [], some 5⟩⟩

/-- A file vault holding one expired secret `("w", "a")`. -/
def fileExpired : FileBackend.StoredData := ⟨1, [("w", [("a", fileExpiredSecret)])]⟩

/-! ### Claim C2 -/

/-- Claim C2: a successful store on an existing `(workspace, name)` (in
either backend) reports `created = false` and the old version plus one,
and the stored record keeps the old `createdAt`; a store on an absent
name reports `created = true` and version 1 (also in either backend). -/
theorem store_version_increment
    (st : MemoryBackend.MemStore) (m : MemoryBackend.WsMap)
    (s : MemoryBackend.StoredSecret) (workspace name : String) (value : List Nat)
    (labels : Option (List (String × String))) (expiresAt : Option Nat) (now : Nat)
    (hws : alistLookup st workspace = some m) (hn : alistLookup m name = some s)
    (st2 : MemoryBackend.MemStore) (workspace2 name2 : String) (value2 : List Nat)
    (labels2 : Option (List (String × String))) (expiresAt2 : Option Nat) (now2 : Nat)
    (habsent : alistLookup ((alistLookup st2 workspace2).getD []) name2 = none)
    (d : FileBackend.StoredData) (fm : FileBackend.WsMap)
    (fs : FileBackend.StoredSecret) (fworkspace fname : String) (fvalue : List Nat)
    (flabels : Option (List (String × String))) (fexpiresAt : Option Nat) (fnow : Nat)
    (hfws : alistLookup d.workspaces fworkspace = some fm)
    (hfn : alistLookup fm fname = some fs)
    (d2 : FileBackend.StoredData) (fworkspace2 fname2 : String) (fvalue2 : List Nat)
    (flabels2 : Option (List (String × String))) (fexpiresAt2 : Option Nat) (fnow2 : Nat)
    (hfabsent : alistLookup ((alistLookup d2.workspaces fworkspace2).getD []) fname2 = none) :
    ((MemoryBackend.store st workspace name value labels expiresAt now).1.created = false
      ∧ (MemoryBackend.store st workspace name value labels expiresAt now).1.version =
          s.metadata.version + 1
      ∧ alistLookup
          ((alistLookup (MemoryBackend.store st workspace name value labels expiresAt now).2
              workspace).getD []) name =
          some ⟨value, ⟨s.metadata.createdAt, now, "memory", s.metadata.version + 1,
            labels.getD [], expiresAt⟩⟩)
    ∧ ((MemoryBackend.store st2 workspace2 name2 value2 labels2 expiresAt2 now2).1.created = true
      ∧ (MemoryBackend.store st2 workspace2 name2 value2 labels2 expiresAt2 now2).1.version = 1)
    ∧ ((FileBackend.store d fworkspace fname fvalue flabels fexpiresAt fnow).1.created = false
      ∧ (FileBackend.store d fworkspace fname fvalue flabels fexpiresAt fnow).1.version =
          fs.metadata.version + 1
      ∧ alistLookup
          ((alistLookup (FileBackend.store d fworkspace fname fvalue flabels fexpiresAt fnow).2.workspaces
              fworkspace).getD []) fname =
          some ⟨base64Encode fvalue, ⟨fs.metadata.createdAt, fnow, "file",
            fs.metadata.version + 1, flabels.getD [], fexpiresAt⟩⟩)
    ∧ ((FileBackend.store d2 fworkspace2 fname2 fvalue2 flabels2 fexpiresAt2 fnow2).1.created = true
      ∧ (FileBackend.store d2 fworkspace2 fname2 fvalue2 flabels2 fexpiresAt2 fnow2).1.version = 1) := by
  refine ⟨⟨?_, ?_, ?_⟩, ⟨?_, ?_⟩, ⟨?_, ?_, ?_⟩, ⟨?_, ?_⟩⟩
  · simp [MemoryBackend.store, hws, hn]
  · simp [MemoryBackend.store, hws, hn]
  · simp [MemoryBackend.store, hws, hn, alistLookup_set_self]
  · simp [MemoryBackend.store, habsent]
  · simp [MemoryBackend.store, habsent]
  · simp [FileBackend.store, hfws, hfn]
  · simp [FileBackend.store, hfws, hfn]
  · simp [FileBackend.store, hfws, hfn, alistLookup_set_self]
  · simp [FileBackend.store, hfabsent]
  · simp [FileBackend.store, hfabsent]

/-- Witness for C2 at the concrete sample stores. -/
theorem store_version_increment_witness :
    ((MemoryBackend.store memSample "w" "a" [9] none none 20).1.created = false
      ∧ (MemoryBackend.store memSample "w" "a" [9] none none 20).1.version =
          memSampleSecret.metadata.version + 1
      ∧ alistLookup
          ((alistLookup (MemoryBackend.store memSample "w" "a" [9] none none 20).2
              "w").getD []) "a" =
          some ⟨[9], ⟨memSampleSecret.metadata.createdAt, 20, "memory",
            memSampleSecret.metadata.version + 1, Option.none.getD [], none⟩⟩)
    ∧ ((MemoryBackend.store [] "w" "a" [9] none none 20).1.created = true
      ∧ (MemoryBackend.store [] "w" "a" [9] none none 20).1.version = 1)
    ∧ ((FileBackend.store fileSample "w" "a" [9] none none 20).1.created = false
      ∧ (FileBackend.store fileSample "w" "a" [9] none none 20).1.version =
          fileSampleSecret.metadata.version + 1
      ∧ alistLookup
          ((alistLookup (FileBackend.store fileSample "w" "a" [9] none none 20).2.workspaces
              "w").getD []) "a" =
          some ⟨base64Encode [9], ⟨fileSampleSecret.metadata.createdAt, 20, "file",
            fileSampleSecret.metadata.version + 1, Option.none.getD [], none⟩⟩)
    ∧ ((FileBackend.store FileBackend.emptyStoredData "w" "a" [9] none none 20).1.created = true
      ∧ (FileBackend.store FileBackend.emptyStoredData "w" "a" [9] none none 20).1.version = 1) :=
  store_version_increment memSample [("a", memSampleSecret)] memSampleSecret
    "w" "a" [9] none none 20 (by decide) (by decide)
    [] "w" "a" [9] none none 20 (by decide)
    fileSample [("a", fileSampleSecret)] fileSampleSecret
    "w" "a" [9] none none 20 (by decide) (by decide)
    FileBackend.emptyStoredData "w" "a" [9] none none 20 (by decide)

/-! ### Claim C7 -/

/-- Claim C7: rotating a name that is absent from the workspace fails
with `SecretNotFound` and leaves the backend state untouched, in both
backends; in particular rotate never creates the secret. -/
theorem rotate_missing_secret_no_write
    (st : MemoryBackend.MemStore) (workspace name : String) (newValue : List Nat)
    (now : Nat)
    (habsent : alistLookup ((alistLookup st workspace).getD []) name = none)
    (d : FileBackend.StoredData) (fworkspace fname : String) (fnewValue : List Nat)
    (fnow : Nat)
    (hfabsent : alistLookup ((alistLookup d.workspaces fworkspace).getD []) fname = none) :
    MemoryBackend.rotate st workspace name newValue now = (.error .secretNotFound, st)
    ∧ FileBackend.rotate d fworkspace fname fnewValue fnow = (.error .secretNotFound, d) := by
  constructor
  · rcases hcase : alistLookup st workspace with _ | m
    · simp [MemoryBackend.rotate, MemoryBackend.getMetadata, hcase]
    · rw [hcase, Option.getD_some] at habsent
      simp [MemoryBackend.rotate, MemoryBackend.getMetadata, hcase, habsent]
  · rcases hcase : alistLookup d.workspaces fworkspace with _ | m
    · simp [FileBackend.rotate, FileBackend.getMetadata, hcase]
    · rw [hcase, Option.getD_some] at hfabsent
      simp [FileBackend.rotate, FileBackend.getMetadata, hcase, hfabsent]

/-- Witness for C7 on the empty stores. -/
theorem rotate_missing_secret_no_write_witness :
    MemoryBackend.rotate [] "w" "a" [1] 5 = (.error .secretNotFound, [])
    ∧ FileBackend.rotate FileBackend.emptyStoredData "w" "a" [1] 5 =
        (.error .secretNotFound, FileBackend.emptyStoredData) :=
  rotate_missing_secret_no_write [] "w" "a" [1] 5 (by decide)
    FileBackend.emptyStoredData "w" "a" [1] 5 (by decide)

/-! ### Claim C9 -/

/-- Claim C9: the default rotate delegates to store without forwarding
the previous labels or expiry, so a successful rotate leaves the secret
with empty labels and no `expiresAt`, in both backends. -/
theorem rotate_resets_labels_and_expiry
    (st : MemoryBackend.MemStore) (m : MemoryBackend.WsMap)
    (s : MemoryBackend.StoredSecret) (workspace name : String) (newValue : List Nat)
    (now : Nat) (hws : alistLookup st workspace = some m)
    (hn : alistLookup m name = some s)
    (hexp : dateExpired s.metadata.expiresAt now = false)
    (d : FileBackend.StoredData) (fm : FileBackend.WsMap)
    (fs : FileBackend.StoredSecret) (fworkspace fname : String) (fnewValue : List Nat)
    (fnow : Nat) (hfws : alistLookup d.workspaces fworkspace = some fm)
    (hfn : alistLookup fm fname = some fs)
    (hfexp : dateExpired fs.metadata.expiresAt fnow = false) :
    MemoryBackend.rotate st workspace name newValue now =
      (.ok (s.metadata.version + 1),
        alistSet st workspace (alistSet m name
          ⟨newValue, ⟨s.metadata.createdAt, now, "memory", s.metadata.version + 1,
            [], none⟩⟩))
    ∧ FileBackend.rotate d fworkspace fname fnewValue fnow =
        (.ok (fs.metadata.version + 1),
          { d with workspaces := (alistSet d.workspaces fworkspace (alistSet fm fname
              ⟨base64Encode fnewValue, ⟨fs.metadata.createdAt, fnow, "file",
                fs.metadata.version + 1, [], none⟩⟩)) }) := by
  constructor
  · simp [MemoryBackend.rotate, MemoryBackend.getMetadata, MemoryBackend.store,
      hws, hn, hexp]
  · simp [FileBackend.rotate, FileBackend.getMetadata, FileBackend.store,
      hfws, hfn, hfexp]

/-- Witness for C9 at the concrete sample stores. -/
theorem rotate_resets_labels_and_expiry_witness :
    MemoryBackend.rotate memSample "w" "a" [9] 20 =
      (.ok (memSampleSecret.metadata.version + 1),
        alistSet memSample "w" (alistSet [("a", memSampleSecret)] "a"
          ⟨[9], ⟨memSampleSecret.metadata.createdAt, 20, "memory",
            memSampleSecret.metadata.version + 1, [], none⟩⟩))
    ∧ FileBackend.rotate fileSample "w" "a" [9] 20 =
        (.ok (fileSampleSecret.metadata.version + 1),
          { fileSample with workspaces := (alistSet fileSample.workspaces "w"
              (alistSet [("a", fileSampleSecret)] "a"
                ⟨base64Encode [9], ⟨fileSampleSecret.metadata.createdAt, 20, "file",
                  fileSampleSecret.metadata.version + 1, [], none⟩⟩)) }) :=
  rotate_resets_labels_and_expiry memSample [("a", memSampleSecret)] memSampleSecret
    "w" "a" [9] 20 (by decide) (by decide) (by decide)
    fileSample [("a", fileSampleSecret)] fileSampleSecret
    "w" "a" [9] 20 (by decide) (by decide) (by decide)

/-! ### Claim C10 -/

/-- Claim C10: delete performs no expiration check: an expired secret
still present in the store is deleted with result `true`, even though
retrieve and getMetadata at the same instant fail with `SecretNotFound`;
in both backends. -/
theorem delete_skips_expiry_check
    (st : MemoryBackend.MemStore) (m : MemoryBackend.WsMap)
    (s : MemoryBackend.StoredSecret) (workspace name : String)
    (version : Option Nat) (now e : Nat)
    (hws : alistLookup st workspace = some m) (hn : alistLookup m name = some s)
    (he : s.metadata.expiresAt = some e) (hlt : e < now)
    (d : FileBackend.StoredData) (fm : FileBackend.WsMap)
    (fs : FileBackend.StoredSecret) (fworkspace fname : String)
    (fversion : Option Nat) (fnow fe : Nat)
    (hfws : alistLookup d.workspaces fworkspace = some fm)
    (hfn : alistLookup fm fname = some fs)
    (hfe : fs.metadata.expiresAt = some fe) (hflt : fe < fnow) :
    MemoryBackend.delete st workspace name =
      (true, alistSet st workspace (alistErase m name))
    ∧ (MemoryBackend.retrieve st workspace name version now).1 = .error .secretNotFound
    ∧ (MemoryBackend.getMetadata st workspace name now).1 = .error .secretNotFound
    ∧ FileBackend.delete d fworkspace fname =
        (true, { d with workspaces := alistSet d.workspaces fworkspace (alistErase fm fname) })
    ∧ (FileBackend.retrieve d fworkspace fname fversion fnow).1 = .error .secretNotFound
    ∧ (FileBackend.getMetadata d fworkspace fname fnow).1 = .error .secretNotFound := by
  refine ⟨?_, ?_, ?_, ?_, ?_, ?_⟩
  · simp [MemoryBackend.delete, hws, hn]
  · simp [MemoryBackend.retrieve, hws, hn, he, dateExpired, hlt]
  · simp [MemoryBackend.getMetadata, hws, hn, he, dateExpired, hlt]
  · simp [FileBackend.delete, hfws, hfn]
  · simp [FileBackend.retrieve, hfws, hfn, hfe, dateExpired, hflt]
  · simp [FileBackend.getMetadata, hfws, hfn, hfe, dateExpired, hflt]

/-- Witness for C10 at the concrete expired sample stores. -/
theorem delete_skips_expiry_check_witness :
    MemoryBackend.delete memExpired "w" "a" =
      (true, alistSet memExpired "w" (alistErase [("a", memExpiredSecret)] "a"))
    ∧ (MemoryBackend.retrieve memExpired "w" "a" none 10).1 = .error .secretNotFound
    ∧ (MemoryBackend.getMetadata memExpired "w" "a" 10).1 = .error .secretNotFound
    ∧ FileBackend.delete fileExpired "w" "a" =
        (true, { fileExpired with workspaces :=
            (alistSet fileExpired.workspaces "w" (alistErase [("a", fileExpiredSecret)] "a")) })
    ∧ (FileBackend.retrieve fileExpired "w" "a" none 10).1 = .error .secretNotFound
    ∧ (FileBackend.getMetadata fileExpired "w" "a" 10).1 = .error .secretNotFound :=
  delete_skips_expiry_check memExpired [("a", memExpiredSecret)] memExpiredSecret
    "w" "a" none 10 5 (by decide) (by decide) (by decide) (by decide)
    fileExpired [("a", fileExpiredSecret)] fileExpiredSecret
    "w" "a" none 10 5 (by decide) (by decide) (by decide) (by decide)

/-! ### Claim C5 -/

/-- Claim C5: constructing the file backend over an existing, non-empty
vault whose contents fail authenticated decryption (wrong password or
corrupted ciphertext) fails with an `EncryptionError`; no backend state
is produced, and in particular load never falls back to the default
empty vault. -/
theorem vault_decrypt_failure_fatal
    (path backendId : String) (bytes : List Nat) (msg : String)
    (decryptParse : List Nat → Except String FileBackend.StoredData)
    (hne : bytes ≠ []) (hfail : decryptParse bytes = .error msg) :
    FileBackend.load (some bytes) decryptParse = .error .encryptionError
    ∧ FileBackend.construct path backendId (some bytes) decryptParse =
        .error .encryptionError
    ∧ ∀ st : FileBackend.State,
        FileBackend.construct path backendId (some bytes) decryptParse ≠ .ok st := by
  have hload : FileBackend.load (some bytes) decryptParse = .error .encryptionError := by
    simp [FileBackend.load, List.length_eq_zero, hne, hfail]
  refine ⟨hload, ?_, ?_⟩
  · simp [FileBackend.construct, hload, Except.map]
  · intro st
    simp [FileBackend.construct, hload, Except.map]

/-- Witness for C5 with a one-byte ciphertext and a failing decryptor. -/
theorem vault_decrypt_failure_fatal_witness :
    FileBackend.load (some [1]) (fun _ => .error "bad tag") = .error .encryptionError
    ∧ FileBackend.construct "vault.enc" "file-0" (some [1]) (fun _ => .error "bad tag") =
        .error .encryptionError
    ∧ ∀ st : FileBackend.State,
        FileBackend.construct "vault.enc" "file-0" (some [1]) (fun _ => .error "bad tag") ≠
          .ok st :=
  vault_decrypt_failure_fatal "vault.enc" "file-0" [1] "bad tag"
    (fun _ => .error "bad tag") (by simp) rfl

/-! ### Validator and orchestrator (src/types.ts, src/client.ts) -/

/-- ASCII letter test for the validation patterns. -/
def isAsciiLetter (c : Char) : Bool := ('a' ≤ c && c ≤ 'z') || ('A' ≤ c && c ≤ 'Z')

/-- ASCII digit test for the validation patterns. -/
def isAsciiDigit (c : Char) : Bool := '0' ≤ c && c ≤ '9'

/-- A character matched by `[a-zA-Z0-9_.\-]`. -/
def isNameRestChar (c : Char) : Bool :=
  isAsciiLetter c || isAsciiDigit c || c == '_' || c == '.' || c == '-'

/-- A character matched by the tail class of the workspace pattern: the name
characters plus a forward slash. -/
def isWorkspaceRestChar (c : Char) : Bool := isNameRestChar c || c == '/'

/-- `validateSecretName`: `^[a-zA-Z][a-zA-Z0-9_.\-]{0,254}$` (the
separate emptiness and length-255 guards are subsumed by the pattern). -/
def validateSecretName (name : String) : Bool :=
  match name.toList with
  | [] => false
  | c :: rest => isAsciiLetter c && rest.length ≤ 254 && rest.all isNameRestChar

/-- `validateWorkspaceId`: a leading ASCII letter or digit followed by at
most 254 characters from the name class extended with a forward slash. -/
def validateWorkspaceId (id : String) : Bool :=
  match id.toList with
  | [] => false
  | c :: rest =>
    (isAsciiLetter c || isAsciiDigit c) && rest.length ≤ 254 &&
      rest.all isWorkspaceRestChar

/-- `AuthMethod` values used by the client. -/
inductive AuthMethod where
  | NONE
  | TOKEN
  | TERMINATE
deriving DecidableEq, Repr

/-- A `Session` (dates as epoch milliseconds, as `Date.getTime` yields). -/
structure Session where
  sessionId : String
  workspace : String
  backend : String
  agentId : String
  createdAt : Int
  expiresAt : Int
  ttlSeconds : Int
deriving DecidableEq, Repr

/-- `AuthenticateOptions` of client.ts (authData as a dictionary). -/
structure AuthenticateOptions where
  workspace : Option String
  agentId : Option String
  authMethod : Option AuthMethod
  authData : Option (List (String × String))
  requestedTtl : Option Int
deriving Repr

/-- Backend `Limits` (src/types.ts). -/
structure Limits where
  maxSecretNameLength : Nat
  maxSecretValueLength : Nat
  maxLabelsPerSecret : Nat
  maxSecretsPerWorkspace : Nat
  maxSessionTtlSeconds : Int
deriving DecidableEq, Repr

/-- `MemoryBackend.limits`. -/
def MemoryBackend.limits : Limits := ⟨255, 65536, 64, 10000, 86400⟩

/-- `FileBackend.limits`. -/
def FileBackend.limits : Limits := ⟨255, 65536, 64, 10000, 86400⟩

/-- `AVPClient.DEFAULT_TTL`. -/
def DEFAULT_TTL : Int := 3600

/-- `AVPClient.authenticate`: validate the workspace, route `TERMINATE`
to session removal (requiring a `session_id` in the auth payload), and
otherwise mint a session with the clamped
`ttl = min(requestedTtl ?? DEFAULT_TTL, limits.maxSessionTtlSeconds)`.
The session table is passed explicitly; `maxSessionTtlSeconds` is the
limit of the active backend and `freshSessionId` the random
`avp_sess_`-prefixed token. -/
def AVPClient.authenticate (sessions : List (String × Session))
    (options : AuthenticateOptions) (backendId : String)
    (maxSessionTtlSeconds : Int) (now : Int) (freshSessionId : String) :
    Except AVPErr (Session × List (String × Session)) :=
  let workspace := options.workspace.getD "default"
  let agentId := options.agentId.getD "avp-ts"
  let authMethod := options.authMethod.getD .NONE
  if !validateWorkspaceId workspace then
    .error .invalidWorkspace
  else if authMethod = .TERMINATE then
    match options.authData.bind (fun d => alistLookup d "session_id") with
    | some sessionId =>
      .ok (⟨sessionId, workspace, backendId, agentId, now, now, 0⟩,
        alistErase sessions sessionId)
    | none => .error .authenticationFailed
  else
    let ttl := min (options.requestedTtl.getD DEFAULT_TTL) maxSessionTtlSeconds
    let session : Session :=
      ⟨freshSessionId, workspace, backendId, agentId, now, now + ttl * 1000, ttl⟩
    .ok (session, alistSet sessions freshSessionId session)

/-! ### Claim C8 -/

/-- Claim C8: a non-terminating authenticate on a valid workspace stores
and returns a session whose `ttlSeconds` is
`min(requestedTtl ?? 3600, maxSessionTtlSeconds)`; with the in-scope
backend limit of 86400, a request for 999999 seconds is clamped to at
most 86400. -/
theorem authenticate_ttl_clamp (sessions : List (String × Session))
    (options : AuthenticateOptions) (backendId freshSessionId : String)
    (maxSessionTtlSeconds now : Int)
    (hws : validateWorkspaceId (options.workspace.getD "default") = true)
    (hm : options.authMethod.getD .NONE ≠ .TERMINATE) :
    ∃ s tbl,
      AVPClient.authenticate sessions options backendId maxSessionTtlSeconds now
          freshSessionId = .ok (s, tbl)
      ∧ s.ttlSeconds = min (options.requestedTtl.getD DEFAULT_TTL) maxSessionTtlSeconds
      ∧ alistLookup tbl s.sessionId = some s
      ∧ (options.requestedTtl = some 999999 →
          maxSessionTtlSeconds = MemoryBackend.limits.maxSessionTtlSeconds →
          s.ttlSeconds ≤ 86400) := by
  refine ⟨⟨freshSessionId, options.workspace.getD "default", backendId,
      options.agentId.getD "avp-ts", now,
      now + min (options.requestedTtl.getD DEFAULT_TTL) maxSessionTtlSeconds * 1000,
      min (options.requestedTtl.getD DEFAULT_TTL) maxSessionTtlSeconds⟩,
    alistSet sessions freshSessionId
      ⟨freshSessionId, options.workspace.getD "default", backendId,
        options.agentId.getD "avp-ts", now,
        now + min (options.requestedTtl.getD DEFAULT_TTL) maxSessionTtlSeconds * 1000,
        min (options.requestedTtl.getD DEFAULT_TTL) maxSessionTtlSeconds⟩,
    ?_, rfl, alistLookup_set_self .., ?_⟩
  · simp only [AVPClient.authenticate, hws, Bool.not_true, if_neg hm]
    rfl
  · intro hreq hmax
    rw [hreq, hmax]
    simp only [Option.getD_some, MemoryBackend.limits]
    omega

/-- Witness for C8: requesting a 999999-second TTL against the memory
backend ceiling of 86400 seconds. -/
theorem authenticate_ttl_clamp_witness :
    ∃ s tbl,
      AVPClient.authenticate [] ⟨none, none, none, none, some 999999⟩ "memory-0"
          MemoryBackend.limits.maxSessionTtlSeconds 0 "avp_sess_x" = .ok (s, tbl)
      ∧ s.ttlSeconds =
          min ((some (999999 : Int)).getD DEFAULT_TTL)
            MemoryBackend.limits.maxSessionTtlSeconds
      ∧ alistLookup tbl s.sessionId = some s
      ∧ (some (999999 : Int) = some 999999 →
          MemoryBackend.limits.maxSessionTtlSeconds =
            MemoryBackend.limits.maxSessionTtlSeconds →
          s.ttlSeconds ≤ 86400) :=
  authenticate_ttl_clamp [] ⟨none, none, none, none, some 999999⟩ "memory-0"
    "avp_sess_x" MemoryBackend.limits.maxSessionTtlSeconds 0 (by decide) (by decide)

/-! ### Lemmas about the by-name sort and the collection loops -/

theorem mem_insertByName (cmp : String → String → Ordering) (x y : Secret)
    (l : List Secret) (h : y ∈ insertByName cmp x l) : y = x ∨ y ∈ l := by
  induction l with
  | nil => simpa [insertByName] using h
  | cons z zs ih =>
    by_cases hc : cmp x.name z.name = .gt
    · rw [insertByName, if_pos hc] at h
      rcases List.mem_cons.mp h with h | h
      · exact Or.inr (List.mem_cons.mpr (Or.inl h))
      · rcases ih h with h | h
        · exact Or.inl h
        · exact Or.inr (List.mem_cons.mpr (Or.inr h))
    · rw [insertByName, if_neg hc] at h
      rcases List.mem_cons.mp h with h | h
      · exact Or.inl h
      · exact Or.inr h

theorem sortByName_cons (cmp : String → String → Ordering) (z : Secret)
    (zs : List Secret) :
    sortByName cmp (z :: zs) = insertByName cmp z (sortByName cmp zs) := rfl

theorem mem_sortByName (cmp : String → String → Ordering) (l : List Secret)
    (y : Secret) (h : y ∈ sortByName cmp l) : y ∈ l := by
  induction l with
  | nil => simp [sortByName] at h
  | cons z zs ih =>
    rw [sortByName_cons] at h
    rcases mem_insertByName cmp z y _ h with h2 | h2
    · simp [h2]
    · exact List.mem_cons.mpr (Or.inr (ih h2))

theorem insertByName_pairwise (cmp : String → String → Ordering)
    (htot : ∀ a b, cmp a b = .gt → cmp b a ≠ .gt)
    (htrans : ∀ a b c, cmp a b ≠ .gt → cmp b c ≠ .gt → cmp a c ≠ .gt)
    (x : Secret) (l : List Secret)
    (hl : List.Pairwise (fun a b => cmp a.name b.name ≠ .gt) l) :
    List.Pairwise (fun a b => cmp a.name b.name ≠ .gt) (insertByName cmp x l) := by
  induction l with
  | nil => simp [insertByName]
  | cons y ys ih =>
    rcases List.pairwise_cons.mp hl with ⟨hy, hys⟩
    by_cases hc : cmp x.name y.name = .gt
    · rw [insertByName, if_pos hc]
      refine List.pairwise_cons.mpr ⟨?_, ih hys⟩
      intro z hz
      rcases mem_insertByName cmp x z ys hz with rfl | hz2
      · exact htot _ _ hc
      · exact hy z hz2
    · rw [insertByName, if_neg hc]
      refine List.pairwise_cons.mpr ⟨?_, hl⟩
      intro z hz
      rcases List.mem_cons.mp hz with rfl | hz2
      · exact hc
      · exact htrans _ _ _ hc (hy z hz2)

theorem sortByName_pairwise (cmp : String → String → Ordering)
    (htot : ∀ a b, cmp a b = .gt → cmp b a ≠ .gt)
    (htrans : ∀ a b c, cmp a b ≠ .gt → cmp b c ≠ .gt → cmp a c ≠ .gt)
    (l : List Secret) :
    List.Pairwise (fun a b => cmp a.name b.name ≠ .gt) (sortByName cmp l) := by
  induction l with
  | nil => simp [sortByName]
  | cons z zs ih =>
    rw [sortByName_cons]
    exact insertByName_pairwise cmp htot htrans z _ ih

theorem mem_collectSecrets_mem (workspace : String) (ws : MemoryBackend.WsMap)
    (fl : Option (List (String × String))) (now : Nat) (x : Secret)
    (hx : x ∈ MemoryBackend.collectSecrets workspace ws fl now) :
    ∃ p, p ∈ ws ∧ p.1 = x.name ∧ dateExpired p.2.metadata.expiresAt now = false := by
  simp only [MemoryBackend.collectSecrets, List.mem_filterMap] at hx
  rcases hx with ⟨p, hp, heq⟩
  split at heq
  next h1 => exact absurd heq (by simp)
  next h1 =>
    split at heq
    next h2 => exact absurd heq (by simp)
    next h2 =>
      have hx2 := Option.some.inj heq
      exact ⟨p, hp, by rw [← hx2], by simpa using h1⟩

theorem mem_collectSecretsF_mem (workspace : String) (ws : FileBackend.WsMap)
    (fl : Option (List (String × String))) (now : Nat) (x : Secret)
    (hx : x ∈ FileBackend.collectSecrets workspace ws fl now) :
    ∃ p, p ∈ ws ∧ p.1 = x.name ∧ dateExpired p.2.metadata.expiresAt now = false := by
  simp only [FileBackend.collectSecrets, List.mem_filterMap] at hx
  rcases hx with ⟨p, hp, heq⟩
  split at heq
  next h1 => exact absurd heq (by simp)
  next h1 =>
    split at heq
    next h2 => exact absurd heq (by simp)
    next h2 =>
      have hx2 := Option.some.inj heq
      exact ⟨p, hp, by rw [← hx2], by simpa using h1⟩

/-! ### Claim C3 -/

/-- Claim C3: an expired secret is never returned: retrieve and
getMetadata on it fail with `SecretNotFound` and, as a side effect of
observing the expiry, delete the entry; listSecrets never includes it
(without deleting).  Stated for both backends; the list part assumes the
workspace map is duplicate-free, the invariant every JS object/`Map`
maintains. -/
theorem expired_secret_lazy_expiration
    (st : MemoryBackend.MemStore) (m : MemoryBackend.WsMap)
    (s : MemoryBackend.StoredSecret) (workspace name : String)
    (version : Option Nat) (now e : Nat)
    (hws : alistLookup st workspace = some m) (hn : alistLookup m name = some s)
    (he : s.metadata.expiresAt = some e) (hlt : e < now)
    (hnd : (m.map Prod.fst).Nodup)
    (filterLabels : Option (List (String × String))) (cursor : Option String)
    (limit : Nat) (cmp : String → String → Ordering)
    (d : FileBackend.StoredData) (fm : FileBackend.WsMap)
    (fs : FileBackend.StoredSecret) (fworkspace fname : String)
    (fversion : Option Nat) (fnow fe : Nat)
    (hfws : alistLookup d.workspaces fworkspace = some fm)
    (hfn : alistLookup fm fname = some fs)
    (hfe : fs.metadata.expiresAt = some fe) (hflt : fe < fnow)
    (hfnd : (fm.map Prod.fst).Nodup)
    (ffilterLabels : Option (List (String × String))) (fcursor : Option String)
    (flimit : Nat) (fcmp : String → String → Ordering) :
    MemoryBackend.retrieve st workspace name version now =
      (.error .secretNotFound, alistSet st workspace (alistErase m name))
    ∧ MemoryBackend.getMetadata st workspace name now =
      (.error .secretNotFound, alistSet st workspace (alistErase m name))
    ∧ (∀ x ∈ (MemoryBackend.listSecrets st workspace filterLabels cursor limit
          now cmp).secrets, x.name ≠ name)
    ∧ FileBackend.retrieve d fworkspace fname fversion fnow =
      (.error .secretNotFound,
        { d with workspaces := (alistSet d.workspaces fworkspace (alistErase fm fname)) })
    ∧ FileBackend.getMetadata d fworkspace fname fnow =
      (.error .secretNotFound,
        { d with workspaces := (alistSet d.workspaces fworkspace (alistErase fm fname)) })
    ∧ (∀ x ∈ (FileBackend.listSecrets d fworkspace ffilterLabels fcursor flimit
          fnow fcmp).secrets, x.name ≠ fname) := by
  refine ⟨?_, ?_, ?_, ?_, ?_, ?_⟩
  · simp [MemoryBackend.retrieve, hws, hn, he, dateExpired, hlt]
  · simp [MemoryBackend.getMetadata, hws, hn, he, dateExpired, hlt]
  · intro x hx hxname
    simp only [MemoryBackend.listSecrets, hws] at hx
    have hsorted : x ∈ sortByName cmp
        (MemoryBackend.collectSecrets workspace m filterLabels now) :=
      List.Sublist.mem hx ((List.take_sublist _ _).trans (List.drop_sublist _ _))
    rcases mem_collectSecrets_mem workspace m filterLabels now x
        (mem_sortByName _ _ _ hsorted) with ⟨p, hp, hpname, hpexp⟩
    have hpn : p.1 = name := hpname.trans hxname
    have hps : p.2 = s := by
      have := alistLookup_eq_of_mem_nodup m name p.2 hnd
        (by rw [← hpn]; simpa using hp)
      rw [hn] at this
      exact (Option.some.inj this).symm
    rw [hps, he] at hpexp
    simp [dateExpired, hlt] at hpexp
  · simp [FileBackend.retrieve, hfws, hfn, hfe, dateExpired, hflt]
  · simp [FileBackend.getMetadata, hfws, hfn, hfe, dateExpired, hflt]
  · intro x hx hxname
    simp only [FileBackend.listSecrets, hfws] at hx
    have hsorted : x ∈ sortByName fcmp
        (FileBackend.collectSecrets fworkspace fm ffilterLabels fnow) :=
      List.Sublist.mem hx ((List.take_sublist _ _).trans (List.drop_sublist _ _))
    rcases mem_collectSecretsF_mem fworkspace fm ffilterLabels fnow x
        (mem_sortByName _ _ _ hsorted) with ⟨p, hp, hpname, hpexp⟩
    have hpn : p.1 = fname := hpname.trans hxname
    have hps : p.2 = fs := by
      have := alistLookup_eq_of_mem_nodup fm fname p.2 hfnd
        (by rw [← hpn]; simpa using hp)
      rw [hfn] at this
      exact (Option.some.inj this).symm
    rw [hps, hfe] at hpexp
    simp [dateExpired, hflt] at hpexp

/-- Witness for C3 at the concrete expired sample stores. -/
theorem expired_secret_lazy_expiration_witness :
    MemoryBackend.retrieve memExpired "w" "a" none 10 =
      (.error .secretNotFound, alistSet memExpired "w" (alistErase [("a", memExpiredSecret)] "a"))
    ∧ MemoryBackend.getMetadata memExpired "w" "a" 10 =
      (.error .secretNotFound, alistSet memExpired "w" (alistErase [("a", memExpiredSecret)] "a"))
    ∧ (∀ x ∈ (MemoryBackend.listSecrets memExpired "w" none none 100 10 compare).secrets,
        x.name ≠ "a")
    ∧ FileBackend.retrieve fileExpired "w" "a" none 10 =
      (.error .secretNotFound,
        { fileExpired with workspaces :=
            (alistSet fileExpired.workspaces "w" (alistErase [("a", fileExpiredSecret)] "a")) })
    ∧ FileBackend.getMetadata fileExpired "w" "a" 10 =
      (.error .secretNotFound,
        { fileExpired with workspaces :=
            (alistSet fileExpired.workspaces "w" (alistErase [("a", fileExpiredSecret)] "a")) })
    ∧ (∀ x ∈ (FileBackend.listSecrets fileExpired "w" none none 100 10 compare).secrets,
        x.name ≠ "a") :=
  expired_secret_lazy_expiration memExpired [("a", memExpiredSecret)] memExpiredSecret
    "w" "a" none 10 5 (by decide) (by decide) (by decide) (by decide) (by decide)
    none none 100 compare
    fileExpired [("a", fileExpiredSecret)] fileExpiredSecret
    "w" "a" none 10 5 (by decide) (by decide) (by decide) (by decide) (by decide)
    none none 100 compare

/-! ### Claim C6 -/

/-- Claim C6: for every workspace, label filter, cursor, and limit, the
page returned by listSecrets is sorted by secret name in ascending
order of the sort comparator (the host collation `localeCompare`, here
any comparator whose induced "not greater" relation is total and
transitive), the sort happening before pagination; for both backends. -/
theorem listSecrets_sorted_by_name
    (st : MemoryBackend.MemStore) (workspace : String)
    (filterLabels : Option (List (String × String))) (cursor : Option String)
    (limit now : Nat)
    (d : FileBackend.StoredData) (fworkspace : String)
    (ffilterLabels : Option (List (String × String))) (fcursor : Option String)
    (flimit fnow : Nat) (cmp : String → String → Ordering)
    (htot : ∀ a b, cmp a b = .gt → cmp b a ≠ .gt)
    (htrans : ∀ a b c, cmp a b ≠ .gt → cmp b c ≠ .gt → cmp a c ≠ .gt) :
    List.Pairwise (fun a b => cmp a.name b.name ≠ .gt)
      (MemoryBackend.listSecrets st workspace filterLabels cursor limit now cmp).secrets
    ∧ (∀ m, alistLookup st workspace = some m →
        (MemoryBackend.listSecrets st workspace filterLabels cursor limit now cmp).secrets =
          ((sortByName cmp (MemoryBackend.collectSecrets workspace m filterLabels now)).drop
            (parseCursor cursor)).take limit)
    ∧ List.Pairwise (fun a b => cmp a.name b.name ≠ .gt)
      (FileBackend.listSecrets d fworkspace ffilterLabels fcursor flimit fnow cmp).secrets
    ∧ (∀ fm, alistLookup d.workspaces fworkspace = some fm →
        (FileBackend.listSecrets d fworkspace ffilterLabels fcursor flimit fnow cmp).secrets =
          ((sortByName cmp (FileBackend.collectSecrets fworkspace fm ffilterLabels fnow)).drop
            (parseCursor fcursor)).take flimit) := by
  refine ⟨?_, ?_, ?_, ?_⟩
  · rcases hws : alistLookup st workspace with _ | m
    · simp [MemoryBackend.listSecrets, hws]
    · simp only [MemoryBackend.listSecrets, hws]
      exact (sortByName_pairwise cmp htot htrans _).sublist
        ((List.take_sublist _ _).trans (List.drop_sublist _ _))
  · intro m hws
    simp [MemoryBackend.listSecrets, hws]
  · rcases hws : alistLookup d.workspaces fworkspace with _ | fm
    · simp [FileBackend.listSecrets, hws]
    · simp only [FileBackend.listSecrets, hws]
      exact (sortByName_pairwise cmp htot htrans _).sublist
        ((List.take_sublist _ _).trans (List.drop_sublist _ _))
  · intro fm hws
    simp [FileBackend.listSecrets, hws]

/-- Witness for C6 with a degenerate total comparator on the sample
stores. -/
theorem listSecrets_sorted_by_name_witness :
    List.Pairwise (fun a b => (fun _ _ => Ordering.lt) a.name b.name ≠ Ordering.gt)
      (MemoryBackend.listSecrets memSample "w" none none 100 10 (fun _ _ => Ordering.lt)).secrets
    ∧ (∀ m, alistLookup memSample "w" = some m →
        (MemoryBackend.listSecrets memSample "w" none none 100 10 (fun _ _ => Ordering.lt)).secrets =
          ((sortByName (fun _ _ => Ordering.lt)
              (MemoryBackend.collectSecrets "w" m none 10)).drop
            (parseCursor none)).take 100)
    ∧ List.Pairwise (fun a b => (fun _ _ => Ordering.lt) a.name b.name ≠ Ordering.gt)
      (FileBackend.listSecrets fileSample "w" none none 100 10 (fun _ _ => Ordering.lt)).secrets
    ∧ (∀ fm, alistLookup fileSample.workspaces "w" = some fm →
        (FileBackend.listSecrets fileSample "w" none none 100 10 (fun _ _ => Ordering.lt)).secrets =
          ((sortByName (fun _ _ => Ordering.lt)
              (FileBackend.collectSecrets "w" fm none 10)).drop
            (parseCursor none)).take 100) :=
  listSecrets_sorted_by_name memSample "w" none none 100 10
    fileSample "w" none none 100 10 (fun _ _ => Ordering.lt)
    (fun _ _ h => Ordering.noConfusion h) (fun _ _ _ h1 _ => h1)

/-! ### Frame and read-isolation lemmas for the memory backend -/

theorem MemoryBackend.store_frame (st : MemoryBackend.MemStore) (A B name : String)
    (value : List Nat) (labels : Option (List (String × String)))
    (expiresAt : Option Nat) (now : Nat) (h : B ≠ A) :
    alistLookup (MemoryBackend.store st A name value labels expiresAt now).2 B =
      alistLookup st B := by
  simp only [MemoryBackend.store]
  exact alistLookup_set_ne _ _ _ _ h

theorem MemoryBackend.retrieve_frame (st : MemoryBackend.MemStore) (A B name : String)
    (version : Option Nat) (now : Nat) (h : B ≠ A) :
    alistLookup (MemoryBackend.retrieve st A name version now).2 B =
      alistLookup st B := by
  rcases hws : alistLookup st A with _ | m
  · simp [MemoryBackend.retrieve, hws]
  · rcases hn : alistLookup m name with _ | s
    · simp [MemoryBackend.retrieve, hws, hn]
    · by_cases hexp : dateExpired s.metadata.expiresAt now = true
      · simp [MemoryBackend.retrieve, hws, hn, hexp, alistLookup_set_ne _ _ _ _ h]
      · by_cases hv : (version.any fun v => v != s.metadata.version) = true
        · simp [MemoryBackend.retrieve, hws, hn, hexp, hv]
        · simp [MemoryBackend.retrieve, hws, hn, hexp, hv]

theorem MemoryBackend.delete_frame (st : MemoryBackend.MemStore) (A B name : String)
    (h : B ≠ A) :
    alistLookup (MemoryBackend.delete st A name).2 B = alistLookup st B := by
  rcases hws : alistLookup st A with _ | m
  · simp [MemoryBackend.delete, hws]
  · rcases hn : alistLookup m name with _ | s
    · simp [MemoryBackend.delete, hws, hn]
    · simp [MemoryBackend.delete, hws, hn, alistLookup_set_ne _ _ _ _ h]

theorem MemoryBackend.getMetadata_frame (st : MemoryBackend.MemStore)
    (A B name : String) (now : Nat) (h : B ≠ A) :
    alistLookup (MemoryBackend.getMetadata st A name now).2 B = alistLookup st B := by
  rcases hws : alistLookup st A with _ | m
  · simp [MemoryBackend.getMetadata, hws]
  · rcases hn : alistLookup m name with _ | s
    · simp [MemoryBackend.getMetadata, hws, hn]
    · by_cases hexp : dateExpired s.metadata.expiresAt now = true
      · simp [MemoryBackend.getMetadata, hws, hn, hexp, alistLookup_set_ne _ _ _ _ h]
      · simp [MemoryBackend.getMetadata, hws, hn, hexp]

theorem MemoryBackend.rotate_frame (st : MemoryBackend.MemStore) (A B name : String)
    (newValue : List Nat) (now : Nat) (h : B ≠ A) :
    alistLookup (MemoryBackend.rotate st A name newValue now).2 B =
      alistLookup st B := by
  have hgf := MemoryBackend.getMetadata_frame st A B name now h
  rcases hg : MemoryBackend.getMetadata st A name now with ⟨r, st2⟩
  rw [hg] at hgf
  cases r with
  | error e => simpa [MemoryBackend.rotate, hg] using hgf
  | ok md =>
    simp only [MemoryBackend.rotate, hg]
    rw [MemoryBackend.store_frame st2 A B name newValue none none now h]
    exact hgf

theorem MemoryBackend.store_read (st st2 : MemoryBackend.MemStore) (A : String)
    (h : alistLookup st A = alistLookup st2 A) (name : String) (value : List Nat)
    (labels : Option (List (String × String))) (expiresAt : Option Nat) (now : Nat) :
    (MemoryBackend.store st A name value labels expiresAt now).1 =
      (MemoryBackend.store st2 A name value labels expiresAt now).1 := by
  simp only [MemoryBackend.store, h]

theorem MemoryBackend.retrieve_read (st st2 : MemoryBackend.MemStore) (A : String)
    (h : alistLookup st A = alistLookup st2 A) (name : String)
    (version : Option Nat) (now : Nat) :
    (MemoryBackend.retrieve st A name version now).1 =
      (MemoryBackend.retrieve st2 A name version now).1 := by
  simp only [MemoryBackend.retrieve, h]
  rcases hws : alistLookup st2 A with _ | m
  · simp [hws]
  · rcases hn : alistLookup m name with _ | s
    · simp [hws, hn]
    · by_cases hexp : dateExpired s.metadata.expiresAt now = true
      · simp [hws, hn, hexp]
      · by_cases hv : (version.any fun v => v != s.metadata.version) = true <;>
          simp [hws, hn, hexp, hv]

theorem MemoryBackend.delete_read (st st2 : MemoryBackend.MemStore) (A : String)
    (h : alistLookup st A = alistLookup st2 A) (name : String) :
    (MemoryBackend.delete st A name).1 = (MemoryBackend.delete st2 A name).1 := by
  simp only [MemoryBackend.delete, h]
  rcases hws : alistLookup st2 A with _ | m
  · simp [hws]
  · rcases hn : alistLookup m name with _ | s <;> simp [hws, hn]

theorem MemoryBackend.getMetadata_read (st st2 : MemoryBackend.MemStore) (A : String)
    (h : alistLookup st A = alistLookup st2 A) (name : String) (now : Nat) :
    (MemoryBackend.getMetadata st A name now).1 =
      (MemoryBackend.getMetadata st2 A name now).1 := by
  simp only [MemoryBackend.getMetadata, h]
  rcases hws : alistLookup st2 A with _ | m
  · simp [hws]
  · rcases hn : alistLookup m name with _ | s
    · simp [hws, hn]
    · by_cases hexp : dateExpired s.metadata.expiresAt now = true <;>
        simp [hws, hn, hexp]

theorem MemoryBackend.listSecrets_read (st st2 : MemoryBackend.MemStore) (A : String)
    (h : alistLookup st A = alistLookup st2 A)
    (filterLabels : Option (List (String × String))) (cursor : Option String)
    (limit now : Nat) (cmp : String → String → Ordering) :
    MemoryBackend.listSecrets st A filterLabels cursor limit now cmp =
      MemoryBackend.listSecrets st2 A filterLabels cursor limit now cmp := by
  simp only [MemoryBackend.listSecrets, h]

theorem MemoryBackend.rotate_read (st st2 : MemoryBackend.MemStore) (A : String)
    (h : alistLookup st A = alistLookup st2 A) (name : String) (newValue : List Nat)
    (now : Nat) :
    (MemoryBackend.rotate st A name newValue now).1 =
      (MemoryBackend.rotate st2 A name newValue now).1 := by
  simp only [MemoryBackend.rotate, MemoryBackend.getMetadata, h]
  rcases hws : alistLookup st2 A with _ | m
  · simp [hws]
  · rcases hn : alistLookup m name with _ | s
    · simp [hws, hn]
    · by_cases hexp : dateExpired s.metadata.expiresAt now = true
      · simp [hws, hn, hexp]
      · simp [hws, hn, hexp,
          MemoryBackend.store_read st st2 A h name newValue none none now]

/-! ### Frame and read-isolation lemmas for the file backend -/

theorem FileBackend.store_frame_file (d : FileBackend.StoredData) (A B name : String)
    (value : List Nat) (labels : Option (List (String × String)))
    (expiresAt : Option Nat) (now : Nat) (h : B ≠ A) :
    alistLookup (FileBackend.store d A name value labels expiresAt now).2.workspaces B =
      alistLookup d.workspaces B := by
  simp only [FileBackend.store]
  exact alistLookup_set_ne _ _ _ _ h

theorem FileBackend.retrieve_frame_file (d : FileBackend.StoredData) (A B name : String)
    (version : Option Nat) (now : Nat) (h : B ≠ A) :
    alistLookup (FileBackend.retrieve d A name version now).2.workspaces B =
      alistLookup d.workspaces B := by
  rcases hws : alistLookup d.workspaces A with _ | m
  · simp [FileBackend.retrieve, hws]
  · rcases hn : alistLookup m name with _ | s
    · simp [FileBackend.retrieve, hws, hn]
    · by_cases hexp : dateExpired s.metadata.expiresAt now = true
      · simp [FileBackend.retrieve, hws, hn, hexp, alistLookup_set_ne _ _ _ _ h]
      · by_cases hv : (version.any fun v => v != s.metadata.version) = true
        · simp [FileBackend.retrieve, hws, hn, hexp, hv]
        · simp [FileBackend.retrieve, hws, hn, hexp, hv]

theorem FileBackend.delete_frame_file (d : FileBackend.StoredData) (A B name : String)
    (h : B ≠ A) :
    alistLookup (FileBackend.delete d A name).2.workspaces B =
      alistLookup d.workspaces B := by
  rcases hws : alistLookup d.workspaces A with _ | m
  · simp [FileBackend.delete, hws]
  · rcases hn : alistLookup m name with _ | s
    · simp [FileBackend.delete, hws, hn]
    · simp [FileBackend.delete, hws, hn, alistLookup_set_ne _ _ _ _ h]

theorem FileBackend.getMetadata_frame_file (d : FileBackend.StoredData)
    (A B name : String) (now : Nat) (h : B ≠ A) :
    alistLookup (FileBackend.getMetadata d A name now).2.workspaces B =
      alistLookup d.workspaces B := by
  rcases hws : alistLookup d.workspaces A with _ | m
  · simp [FileBackend.getMetadata, hws]
  · rcases hn : alistLookup m name with _ | s
    · simp [FileBackend.getMetadata, hws, hn]
    · by_cases hexp : dateExpired s.metadata.expiresAt now = true
      · simp [FileBackend.getMetadata, hws, hn, hexp, alistLookup_set_ne _ _ _ _ h]
      · simp [FileBackend.getMetadata, hws, hn, hexp]

theorem FileBackend.rotate_frame_file (d : FileBackend.StoredData) (A B name : String)
    (newValue : List Nat) (now : Nat) (h : B ≠ A) :
    alistLookup (FileBackend.rotate d A name newValue now).2.workspaces B =
      alistLookup d.workspaces B := by
  have hgf := FileBackend.getMetadata_frame_file d A B name now h
  rcases hg : FileBackend.getMetadata d A name now with ⟨r, d2⟩
  rw [hg] at hgf
  cases r with
  | error e => simpa [FileBackend.rotate, hg] using hgf
  | ok md =>
    simp only [FileBackend.rotate, hg]
    rw [FileBackend.store_frame_file d2 A B name newValue none none now h]
    exact hgf

theorem FileBackend.store_read_file (d d2 : FileBackend.StoredData) (A : String)
    (h : alistLookup d.workspaces A = alistLookup d2.workspaces A) (name : String)
    (value : List Nat) (labels : Option (List (String × String)))
    (expiresAt : Option Nat) (now : Nat) :
    (FileBackend.store d A name value labels expiresAt now).1 =
      (FileBackend.store d2 A name value labels expiresAt now).1 := by
  simp only [FileBackend.store, h]

theorem FileBackend.retrieve_read_file (d d2 : FileBackend.StoredData) (A : String)
    (h : alistLookup d.workspaces A = alistLookup d2.workspaces A) (name : String)
    (version : Option Nat) (now : Nat) :
    (FileBackend.retrieve d A name version now).1 =
      (FileBackend.retrieve d2 A name version now).1 := by
  simp only [FileBackend.retrieve, h]
  rcases hws : alistLookup d2.workspaces A with _ | m
  · simp [hws]
  · rcases hn : alistLookup m name with _ | s
    · simp [hws, hn]
    · by_cases hexp : dateExpired s.metadata.expiresAt now = true
      · simp [hws, hn, hexp]
      · by_cases hv : (version.any fun v => v != s.metadata.version) = true <;>
          simp [hws, hn, hexp, hv]

theorem FileBackend.delete_read_file (d d2 : FileBackend.StoredData) (A : String)
    (h : alistLookup d.workspaces A = alistLookup d2.workspaces A) (name : String) :
    (FileBackend.delete d A name).1 = (FileBackend.delete d2 A name).1 := by
  simp only [FileBackend.delete, h]
  rcases hws : alistLookup d2.workspaces A with _ | m
  · simp [hws]
  · rcases hn : alistLookup m name with _ | s <;> simp [hws, hn]

theorem FileBackend.getMetadata_read_file (d d2 : FileBackend.StoredData) (A : String)
    (h : alistLookup d.workspaces A = alistLookup d2.workspaces A) (name : String)
    (now : Nat) :
    (FileBackend.getMetadata d A name now).1 =
      (FileBackend.getMetadata d2 A name now).1 := by
  simp only [FileBackend.getMetadata, h]
  rcases hws : alistLookup d2.workspaces A with _ | m
  · simp [hws]
  · rcases hn : alistLookup m name with _ | s
    · simp [hws, hn]
    · by_cases hexp : dateExpired s.metadata.expiresAt now = true <;>
        simp [hws, hn, hexp]

theorem FileBackend.listSecrets_read_file (d d2 : FileBackend.StoredData) (A : String)
    (h : alistLookup d.workspaces A = alistLookup d2.workspaces A)
    (filterLabels : Option (List (String × String))) (cursor : Option String)
    (limit now : Nat) (cmp : String → String → Ordering) :
    FileBackend.listSecrets d A filterLabels cursor limit now cmp =
      FileBackend.listSecrets d2 A filterLabels cursor limit now cmp := by
  simp only [FileBackend.listSecrets, h]

theorem FileBackend.rotate_read_file (d d2 : FileBackend.StoredData) (A : String)
    (h : alistLookup d.workspaces A = alistLookup d2.workspaces A) (name : String)
    (newValue : List Nat) (now : Nat) :
    (FileBackend.rotate d A name newValue now).1 =
      (FileBackend.rotate d2 A name newValue now).1 := by
  simp only [FileBackend.rotate, FileBackend.getMetadata, h]
  rcases hws : alistLookup d2.workspaces A with _ | m
  · simp [hws]
  · rcases hn : alistLookup m name with _ | s
    · simp [hws, hn]
    · by_cases hexp : dateExpired s.metadata.expiresAt now = true
      · simp [hws, hn, hexp]
      · simp [hws, hn, hexp,
          FileBackend.store_read_file d d2 A h name newValue none none now]

/-! ### Claim C4 -/

/-- Claim C4: workspace isolation, for both backends.  For a workspace
`B` distinct from `A`: every mutating operation invoked on `A` leaves the
data keyed under `B` unchanged (frame conditions), and every operation
result on `A` is the same on any two states that agree on the submap of
`A` — so data under `B` never influences, and hence never appears in, an operation
result for `A` (read isolation; listSecrets does not mutate at all, its
state result being the operand itself). -/
theorem workspace_isolation (A B : String) (hne : B ≠ A)
    (st st2 : MemoryBackend.MemStore)
    (hagree : alistLookup st A = alistLookup st2 A)
    (d d2 : FileBackend.StoredData)
    (hfagree : alistLookup d.workspaces A = alistLookup d2.workspaces A)
    (name : String) (value newValue : List Nat)
    (labels : Option (List (String × String))) (expiresAt : Option Nat)
    (now : Nat) (version : Option Nat)
    (filterLabels : Option (List (String × String))) (cursor : Option String)
    (limit : Nat) (cmp : String → String → Ordering) :
    (alistLookup (MemoryBackend.store st A name value labels expiresAt now).2 B =
        alistLookup st B
      ∧ alistLookup (MemoryBackend.retrieve st A name version now).2 B =
        alistLookup st B
      ∧ alistLookup (MemoryBackend.delete st A name).2 B = alistLookup st B
      ∧ alistLookup (MemoryBackend.getMetadata st A name now).2 B = alistLookup st B
      ∧ alistLookup (MemoryBackend.rotate st A name newValue now).2 B =
        alistLookup st B)
    ∧ ((MemoryBackend.store st A name value labels expiresAt now).1 =
        (MemoryBackend.store st2 A name value labels expiresAt now).1
      ∧ (MemoryBackend.retrieve st A name version now).1 =
        (MemoryBackend.retrieve st2 A name version now).1
      ∧ (MemoryBackend.delete st A name).1 = (MemoryBackend.delete st2 A name).1
      ∧ MemoryBackend.listSecrets st A filterLabels cursor limit now cmp =
        MemoryBackend.listSecrets st2 A filterLabels cursor limit now cmp
      ∧ (MemoryBackend.getMetadata st A name now).1 =
        (MemoryBackend.getMetadata st2 A name now).1
      ∧ (MemoryBackend.rotate st A name newValue now).1 =
        (MemoryBackend.rotate st2 A name newValue now).1)
    ∧ (alistLookup (FileBackend.store d A name value labels expiresAt now).2.workspaces B =
        alistLookup d.workspaces B
      ∧ alistLookup (FileBackend.retrieve d A name version now).2.workspaces B =
        alistLookup d.workspaces B
      ∧ alistLookup (FileBackend.delete d A name).2.workspaces B =
        alistLookup d.workspaces B
      ∧ alistLookup (FileBackend.getMetadata d A name now).2.workspaces B =
        alistLookup d.workspaces B
      ∧ alistLookup (FileBackend.rotate d A name newValue now).2.workspaces B =
        alistLookup d.workspaces B)
    ∧ ((FileBackend.store d A name value labels expiresAt now).1 =
        (FileBackend.store d2 A name value labels expiresAt now).1
      ∧ (FileBackend.retrieve d A name version now).1 =
        (FileBackend.retrieve d2 A name version now).1
      ∧ (FileBackend.delete d A name).1 = (FileBackend.delete d2 A name).1
      ∧ FileBackend.listSecrets d A filterLabels cursor limit now cmp =
        FileBackend.listSecrets d2 A filterLabels cursor limit now cmp
      ∧ (FileBackend.getMetadata d A name now).1 =
        (FileBackend.getMetadata d2 A name now).1
      ∧ (FileBackend.rotate d A name newValue now).1 =
        (FileBackend.rotate d2 A name newValue now).1) :=
  ⟨⟨MemoryBackend.store_frame st A B name value labels expiresAt now hne,
    MemoryBackend.retrieve_frame st A B name version now hne,
    MemoryBackend.delete_frame st A B name hne,
    MemoryBackend.getMetadata_frame st A B name now hne,
    MemoryBackend.rotate_frame st A B name newValue now hne⟩,
  ⟨MemoryBackend.store_read st st2 A hagree name value labels expiresAt now,
    MemoryBackend.retrieve_read st st2 A hagree name version now,
    MemoryBackend.delete_read st st2 A hagree name,
    MemoryBackend.listSecrets_read st st2 A hagree filterLabels cursor limit now cmp,
    MemoryBackend.getMetadata_read st st2 A hagree name now,
    MemoryBackend.rotate_read st st2 A hagree name newValue now⟩,
  ⟨FileBackend.store_frame_file d A B name value labels expiresAt now hne,
    FileBackend.retrieve_frame_file d A B name version now hne,
    FileBackend.delete_frame_file d A B name hne,
    FileBackend.getMetadata_frame_file d A B name now hne,
    FileBackend.rotate_frame_file d A B name newValue now hne⟩,
  ⟨FileBackend.store_read_file d d2 A hfagree name value labels expiresAt now,
    FileBackend.retrieve_read_file d d2 A hfagree name version now,
    FileBackend.delete_read_file d d2 A hfagree name,
    FileBackend.listSecrets_read_file d d2 A hfagree filterLabels cursor limit now cmp,
    FileBackend.getMetadata_read_file d d2 A hfagree name now,
    FileBackend.rotate_read_file d d2 A hfagree name newValue now⟩⟩

/-- A two-workspace memory store: live data under "w", expired data
under "v". -/
def memSampleB : MemoryBackend.MemStore :=
  [("w", [("a", memSampleSecret)]), ("v", [("a", memExpiredSecret)])]

/-- A two-workspace file vault: live data under "w", expired data under
"v". -/
def fileSampleB : FileBackend.StoredData :=
  ⟨1, [("w", [("a", fileSampleSecret)]), ("v", [("a", fileExpiredSecret)])]⟩

/-- Witness for C4: operations on workspace "w" leave workspace "v"
untouched, and their results agree between `memSampleB`/`fileSampleB`
and the single-workspace stores that carry the same "w" submap. -/
theorem workspace_isolation_witness :
    (alistLookup (MemoryBackend.store memSampleB "w" "a" [9] none none 10).2 "v" =
        alistLookup memSampleB "v"
      ∧ alistLookup (MemoryBackend.retrieve memSampleB "w" "a" none 10).2 "v" =
        alistLookup memSampleB "v"
      ∧ alistLookup (MemoryBackend.delete memSampleB "w" "a").2 "v" =
        alistLookup memSampleB "v"
      ∧ alistLookup (MemoryBackend.getMetadata memSampleB "w" "a" 10).2 "v" =
        alistLookup memSampleB "v"
      ∧ alistLookup (MemoryBackend.rotate memSampleB "w" "a" [9] 10).2 "v" =
        alistLookup memSampleB "v")
    ∧ ((MemoryBackend.store memSampleB "w" "a" [9] none none 10).1 =
        (MemoryBackend.store memSample "w" "a" [9] none none 10).1
      ∧ (MemoryBackend.retrieve memSampleB "w" "a" none 10).1 =
        (MemoryBackend.retrieve memSample "w" "a" none 10).1
      ∧ (MemoryBackend.delete memSampleB "w" "a").1 =
        (MemoryBackend.delete memSample "w" "a").1
      ∧ MemoryBackend.listSecrets memSampleB "w" none none 100 10 compare =
        MemoryBackend.listSecrets memSample "w" none none 100 10 compare
      ∧ (MemoryBackend.getMetadata memSampleB "w" "a" 10).1 =
        (MemoryBackend.getMetadata memSample "w" "a" 10).1
      ∧ (MemoryBackend.rotate memSampleB "w" "a" [9] 10).1 =
        (MemoryBackend.rotate memSample "w" "a" [9] 10).1)
    ∧ (alistLookup (FileBackend.store fileSampleB "w" "a" [9] none none 10).2.workspaces "v" =
        alistLookup fileSampleB.workspaces "v"
      ∧ alistLookup (FileBackend.retrieve fileSampleB "w" "a" none 10).2.workspaces "v" =
        alistLookup fileSampleB.workspaces "v"
      ∧ alistLookup (FileBackend.delete fileSampleB "w" "a").2.workspaces "v" =
        alistLookup fileSampleB.workspaces "v"
      ∧ alistLookup (FileBackend.getMetadata fileSampleB "w" "a" 10).2.workspaces "v" =
        alistLookup fileSampleB.workspaces "v"
      ∧ alistLookup (FileBackend.rotate fileSampleB "w" "a" [9] 10).2.workspaces "v" =
        alistLookup fileSampleB.workspaces "v")
    ∧ ((FileBackend.store fileSampleB "w" "a" [9] none none 10).1 =
        (FileBackend.store fileSample "w" "a" [9] none none 10).1
      ∧ (FileBackend.retrieve fileSampleB "w" "a" none 10).1 =
        (FileBackend.retrieve fileSample "w" "a" none 10).1
      ∧ (FileBackend.delete fileSampleB "w" "a").1 =
        (FileBackend.delete fileSample "w" "a").1
      ∧ FileBackend.listSecrets fileSampleB "w" none none 100 10 compare =
        FileBackend.listSecrets fileSample "w" none none 100 10 compare
      ∧ (FileBackend.getMetadata fileSampleB "w" "a" 10).1 =
        (FileBackend.getMetadata fileSample "w" "a" 10).1
      ∧ (FileBackend.rotate fileSampleB "w" "a" [9] 10).1 =
        (FileBackend.rotate fileSample "w" "a" [9] 10).1) :=
  workspace_isolation "w" "v" (by decide) memSampleB memSample (by decide)
    fileSampleB fileSample (by decide) "a" [9] [9] none none 10 none none none
    100 compare

end AVP
